import Mathlib

/-!
Verification development for the `django-rest-client` library
(`src/rest_client/rest/client.py`, `src/rest/exceptions.py`).

The Python code is embedded shallowly:
* exceptions become an error type `ClientError`, and fallible code returns
  `Except ClientError _`;
* the HTTP transport (`requests`) becomes an explicit function
  `HttpRequest → HttpResult`; every operation additionally returns the list of
  HTTP requests actually issued, so that "zero network calls" is a statement
  about that trace;
* Python dicts (`kwargs`, `values`) become association lists with unique keys;
  `dict.pop` is `List.eraseP` on the key;
* JSON payloads are opaque to every claim, so `Json` is the raw text.
-/

/-- A JSON payload. No claim inspects the structure of a payload, so it is
kept as raw text. -/
abbrev Json := String

/-- A single field/parameter value. -/
abbrev Value := String

/-- Modelled from the spec: `operations.py` is not in the sources; the spec
describes the Operations enum as the closed set {get, get_over_post, put,
delete}. -/
inductive Operations
  | get
  | get_over_post
  | put
  | delete
  deriving DecidableEq, Repr

/-- A value supplied in a `supported_operations` set: either a genuine
`Operations` member or some other Python object (which
`isinstance(operation, Operations)` rejects). -/
inductive OpValue
  | valid (o : Operations)
  | invalid
  deriving DecidableEq, Repr

/-- The exceptions raised by the client (`src/rest/exceptions.py` plus the
Django/stdlib exceptions used in `client.py`). -/
inductive ClientError
  | objectDoesNotExist
  | apiError (status_code : Nat) (message : String)
  | operationNotEnabled
  | improperlyConfigured (msg : String)
  | notImplementedError (msg : String)
  | runtimeError (msg : String)
  | keyError (key : String)
  deriving DecidableEq, Repr

/-- Modelled from the spec: `fields.py` is not in the sources; a field carries
a validation rule ("clean") used when a path variable is resolved from a
resource instance. -/
structure RField where
  clean : Value → Value

/-- Modelled from the spec: `resource.py` is not in the sources; a resource
instance is a mapping of field name → value and can serialize itself
(`to_api`). `attr` models Python attribute access `getattr(res, name)`;
`toApi` is the (pre-computed) result of `res.to_api()`. -/
structure RInstance where
  attr : String → Value
  toApi : Json

/-- Modelled from the spec: a collection instance, constructed from a JSON
list. Opaque to every claim. -/
structure CInstance where
  data : Json

/-- The `_meta` object of a Resource class, as read by
`ResourceClient.contribute_to_class`. `resource` is the resource-class
constructor applied to the response JSON (`self.meta.resource(**request.json())`). -/
structure ResourceMeta where
  path : Option String
  path_variables : List String
  fields : List (String × RField)
  supported_operations : List OpValue
  default_send_as_json : Bool
  default_return_resource : Option (Json → RInstance)
  resource : Json → RInstance

/-- The `_meta` object of a Collection class, as read by
`CollectionClient.contribute_to_class`. -/
structure CollectionMeta where
  path : Option String
  path_variables : List String
  fields : List (String × RField)
  operation : OpValue
  collection : Json → CInstance

/-- Python truthiness of the configured `path` (`if not self.path`): falsy
when `None` or the empty string. -/
def pathTruthy : Option String → Bool
  | none => false
  | some s => !s.isEmpty

/-- HTTP verbs of the `requests` methods the client can invoke. `put` exists
in `requests` but is never used by the client (its `put` operation posts). -/
inductive Method
  | get
  | post
  | put
  | delete
  deriving DecidableEq, Repr

/-- The body of an outgoing request, as `requests` receives it:
`jsonBody` is the `json=` keyword argument, `formJson` is `data=` holding a
serialized resource, `formParams` is `data=` holding the leftover kwargs
(the second positional argument of `requests.post` in get-over-post). -/
inductive ReqBody
  | empty
  | jsonBody (j : Json)
  | formJson (j : Json)
  | formParams (ps : List (String × Value))
  deriving DecidableEq, Repr

/-- An HTTP request as handed to the `requests` library. -/
structure HttpRequest where
  method : Method
  url : String
  params : List (String × Value)
  body : ReqBody
  headers : List (String × String)
  deriving DecidableEq, Repr

/-- A `requests.Response`: status code, raw text, parsed JSON body. -/
structure HttpResponse where
  status_code : Nat
  text : String
  json : Json
  deriving DecidableEq, Repr

/-- `requests.Response.ok`: true iff the status code is below 400. -/
def HttpResponse.ok (r : HttpResponse) : Bool :=
  r.status_code < 400

/-- The outcome of handing a request to the transport: a response, or a
`requests.exceptions.ConnectionError`. -/
inductive HttpResult
  | resp (r : HttpResponse)
  | connectionError

/-- The HTTP transport: what `self._http_client` does with a request. -/
abbrev Transport := HttpRequest → HttpResult

/-- `BaseClient._make_auth_headers`: returns an empty header dict by
default. -/
def makeAuthHeaders : List (String × String) := []

/-- `BaseClient._handle_api_error`: 404 raises `ObjectDoesNotExist`, anything
else raises `ApiError(status_code, text)`. Only called on non-ok
responses. -/
def handle_api_error (r : HttpResponse) : ClientError :=
  if r.status_code = 404 then .objectDoesNotExist
  else .apiError r.status_code r.text

/-- The value a path variable takes from the resource instance, when the code
path `res and path_var in self.meta.fields` is live: the instance's attribute
cleaned through the declared field's rule. `none` when there is no instance
or the name is not a declared field. -/
def instanceValue (fields : List (String × RField)) (res : Option RInstance)
    (v : String) : Option Value :=
  res.bind fun r => (fields.lookup v).map fun f => f.clean (r.attr v)

/-- The loop body of `BaseClient._make_url`: walk the declared path variables,
building the `values` dict and popping consumed entries from `kwargs`.
Returns the resolved values (in iteration order) and the remaining kwargs, or
the `RuntimeError` raised when a variable is resolvable from neither
source. -/
def resolvePathVariables (fields : List (String × RField)) (res : Option RInstance) :
    List String → List (String × Value) →
    Except ClientError (List (String × Value) × List (String × Value))
  | [], kwargs => .ok ([], kwargs)
  | v :: vs, kwargs =>
    match instanceValue fields res v with
    | some value =>
      (resolvePathVariables fields res vs kwargs).map
        fun p => ((v, value) :: p.1, p.2)
    | none =>
      match kwargs.lookup v with
      | some value =>
        (resolvePathVariables fields res vs (kwargs.eraseP fun kv => kv.1 == v)).map
          fun p => ((v, value) :: p.1, p.2)
      | none =>
        .error (.runtimeError ("No value found for path variable " ++ v))

/-- Character-level engine of Python `str.format(**values)` for plain
`{name}` placeholders (the only shape the templates use): outside braces
characters are copied; inside braces the name is accumulated until `}` and
looked up, a missing name being Python's `KeyError`. The second argument is
`none` outside a placeholder and `some acc` inside one. -/
def fmtChars (values : List (String × Value)) :
    List Char → Option (List Char) → Except ClientError (List Char)
  | [], none => .ok []
  | [], some _ => .error (.runtimeError "Single brace encountered in format string")
  | c :: rest, none =>
    if c = '{' then fmtChars values rest (some [])
    else (fmtChars values rest none).map fun t => c :: t
  | c :: rest, some acc =>
    if c = '}' then
      match values.lookup (String.mk acc.reverse) with
      | some v => (fmtChars values rest none).map fun t => v.data ++ t
      | none => .error (.keyError (String.mk acc.reverse))
    else fmtChars values rest (some (c :: acc))

/-- `template.format(**values)` for the URL templates. -/
def formatString (template : String) (values : List (String × Value)) :
    Except ClientError String :=
  (fmtChars values template.data none).map String.mk

/-- `urllib.parse.urljoin(self._host, url)`. The client hardcodes
`self._host = ''`, and `urljoin('', url) = url`; the non-empty-base branch
approximates the general function, which no code path reaches. -/
def urljoin (base url : String) : String :=
  if base.isEmpty then url else base ++ url

/-- `BaseClient._make_url`: resolve the path variables (when any are
declared), substitute them into the template, join with the host, and return
the URL together with the kwargs not consumed as path variables. -/
def makeUrl (host : String) (path : Option String) (pvs : List String)
    (fields : List (String × RField)) (res : Option RInstance)
    (kwargs : List (String × Value)) :
    Except ClientError (String × List (String × Value)) :=
  if pvs.isEmpty then
    .ok (urljoin host (path.getD ""), kwargs)
  else
    match resolvePathVariables fields res pvs kwargs with
    | .error e => .error e
    | .ok (values, rest) =>
      match formatString (path.getD "") values with
      | .error e => .error e
      | .ok formatted => .ok (urljoin host formatted, rest)

/-- The instance state of a `ResourceClient` after `__init__` and (possibly)
`contribute_to_class`. `update_enabled` mirrors the `_update_enabled`
attribute that `__init__` sets and nothing ever reads. -/
structure ResourceClientState where
  path : Option String
  path_variables : List String
  meta : ResourceMeta
  host : String
  supported_operations : List OpValue
  get_enabled : Bool
  get_over_post_enabled : Bool
  delete_enabled : Bool
  update_enabled : Bool
  put_enabled : Bool
  send_as_json : Bool

/-- The state `ResourceClient.contribute_to_class` reaches after copying the
meta attributes and before validating the operations (all flags still carry
their `__init__` value `False`). -/
def ResourceClient.initState (host : String) (meta : ResourceMeta) :
    ResourceClientState where
  path := meta.path
  path_variables := meta.path_variables
  meta := meta
  host := host
  supported_operations := meta.supported_operations
  get_enabled := false
  get_over_post_enabled := false
  delete_enabled := false
  update_enabled := false
  put_enabled := false
  send_as_json := meta.default_send_as_json

/-- One iteration of the operation loop in
`ResourceClient.contribute_to_class`, for a genuine `Operations` member: set
the matching flag. The enum is closed, so no branch reaches the
`NotImplementedError` arm. -/
def applyOperation (s : ResourceClientState) : Operations → ResourceClientState
  | .get => { s with get_enabled := true }
  | .get_over_post => { s with get_over_post_enabled := true }
  | .delete => { s with delete_enabled := true }
  | .put => { s with put_enabled := true }

/-- The operation loop of `ResourceClient.contribute_to_class`: a value that
is not an `Operations` member raises `ImproperlyConfigured`. -/
def applyOperations (s : ResourceClientState) :
    List OpValue → Except ClientError ResourceClientState
  | [] => .ok s
  | .valid o :: rest => applyOperations (applyOperation s o) rest
  | .invalid :: _ => .error (.improperlyConfigured "Invalid operation supplied!")

/-- `ResourceClient.contribute_to_class`: copy the meta attributes; when the
path is falsy, stop ("The rest is irrelevant if we don't have a path
configured"); otherwise validate the operations, then reject a class with
both `get` and `get_over_post`. -/
def ResourceClient.contribute_to_class (host : String) (meta : ResourceMeta) :
    Except ClientError ResourceClientState :=
  let s0 := ResourceClient.initState host meta
  if !pathTruthy meta.path then .ok s0
  else
    match applyOperations s0 meta.supported_operations with
    | .error e => .error e
    | .ok s =>
      if s.get_enabled && s.get_over_post_enabled then
        .error (.improperlyConfigured
          "Resources cannot have both get and get_over_post configured!")
      else .ok s

/-- The request `ResourceClient.get` issues once the URL is built:
`method(url, kwargs, headers=...)`, where the method is `requests.get`
(second positional argument `params`) or, under get-over-post,
`requests.post` (second positional argument `data`). -/
def ResourceClient.getRequest (c : ResourceClientState) (url : String)
    (rest : List (String × Value)) : HttpRequest :=
  if c.get_over_post_enabled then
    { method := .post, url := url, params := [], body := .formParams rest,
      headers := makeAuthHeaders }
  else
    { method := .get, url := url, params := rest, body := .empty,
      headers := makeAuthHeaders }

/-- `ResourceClient.get`: gate on the enabled flags, build the URL, issue the
request; `ConnectionError` yields the `None` sentinel, an ok response a new
resource instance, anything else `_handle_api_error`. The second component is
the trace of requests handed to the transport. -/
def ResourceClient.get (c : ResourceClientState) (http : Transport)
    (kwargs : List (String × Value)) :
    Except ClientError (Option RInstance) × List HttpRequest :=
  if !c.get_enabled && !c.get_over_post_enabled then
    (.error .operationNotEnabled, [])
  else
    match makeUrl c.host c.path c.path_variables c.meta.fields none kwargs with
    | .error e => (.error e, [])
    | .ok (url, rest) =>
      let req := ResourceClient.getRequest c url rest
      match http req with
      | .connectionError => (.ok none, [req])
      | .resp r =>
        if r.ok then (.ok (some (c.meta.resource r.json)), [req])
        else (.error (handle_api_error r), [req])

/-- The result of `ResourceClient.put`: a deserialized resource, or a
boolean. -/
inductive PutResult
  | resourceR (r : RInstance)
  | boolR (b : Bool)

/-- The effective `return_resource` of `ResourceClient.put`
(`if not return_resource: return_resource = self.meta.default_return_resource`):
a falsy (None) caller argument is replaced by the schema default. -/
def effReturnResource (c : ResourceClientState)
    (return_resource : Option (Json → RInstance)) : Option (Json → RInstance) :=
  match return_resource with
  | some f => some f
  | none => c.meta.default_return_resource

/-- The effective `as_json` of `ResourceClient.put`
(`if not as_json: as_json = self._send_as_json`): Python replaces every falsy
caller value — both the default `None` and an explicit `False` — by the
schema-level `_send_as_json`. -/
def effAsJson (c : ResourceClientState) (as_json : Option Bool) : Bool :=
  match as_json with
  | some true => true
  | _ => c.send_as_json

/-- The request `ResourceClient.put` posts: leftover kwargs as `params`, the
serialized resource as `json=` or `data=` depending on the effective
`as_json`. -/
def ResourceClient.putRequest (c : ResourceClientState) (obj : RInstance)
    (as_json : Option Bool) (url : String) (rest : List (String × Value)) :
    HttpRequest :=
  { method := .post, url := url, params := rest,
    body := if effAsJson c as_json then .jsonBody obj.toApi
            else .formJson obj.toApi,
    headers := makeAuthHeaders }

/-- `ResourceClient.put`: gate on `_put_enabled`, default the return resource
and `as_json`, build the URL from the instance, POST; `ConnectionError`
yields `False`; an ok response yields the deserialized return resource when
one is configured and `True` otherwise; anything else `_handle_api_error`. -/
def ResourceClient.put (c : ResourceClientState) (http : Transport)
    (obj : RInstance) (return_resource : Option (Json → RInstance))
    (as_json : Option Bool) (kwargs : List (String × Value)) :
    Except ClientError PutResult × List HttpRequest :=
  if !c.put_enabled then
    (.error .operationNotEnabled, [])
  else
    match makeUrl c.host c.path c.path_variables c.meta.fields (some obj) kwargs with
    | .error e => (.error e, [])
    | .ok (url, rest) =>
      let req := ResourceClient.putRequest c obj as_json url rest
      match http req with
      | .connectionError => (.ok (.boolR false), [req])
      | .resp r =>
        if r.ok then
          match effReturnResource c return_resource with
          | some f => (.ok (.resourceR (f r.json)), [req])
          | none => (.ok (.boolR true), [req])
        else (.error (handle_api_error r), [req])

/-- `ResourceClient.delete`: gate on `_delete_enabled`, build the URL
(optionally from an instance), issue a DELETE; `ConnectionError` yields
`False`, otherwise the response's `ok` flag is returned. -/
def ResourceClient.delete (c : ResourceClientState) (http : Transport)
    (obj : Option RInstance) (kwargs : List (String × Value)) :
    Except ClientError Bool × List HttpRequest :=
  if !c.delete_enabled then
    (.error .operationNotEnabled, [])
  else
    match makeUrl c.host c.path c.path_variables c.meta.fields obj kwargs with
    | .error e => (.error e, [])
    | .ok (url, rest) =>
      let req : HttpRequest :=
        { method := .delete, url := url, params := rest, body := .empty,
          headers := makeAuthHeaders }
      match http req with
      | .connectionError => (.ok false, [req])
      | .resp r => (.ok r.ok, [req])

/-- The instance state of a `CollectionClient` after `contribute_to_class`. -/
structure CollectionClientState where
  path : Option String
  path_variables : List String
  meta : CollectionMeta
  host : String
  operation : OpValue

/-- `CollectionClient.contribute_to_class`: copy the meta attributes, then
reject any operation that is neither `get` nor `get_over_post`. -/
def CollectionClient.contribute_to_class (host : String) (meta : CollectionMeta) :
    Except ClientError CollectionClientState :=
  let s : CollectionClientState :=
    { path := meta.path, path_variables := meta.path_variables, meta := meta,
      host := host, operation := meta.operation }
  if !(meta.operation == .valid .get) && !(meta.operation == .valid .get_over_post)
  then
    .error (.improperlyConfigured
      "Collections only support get and get_over_post operations!")
  else .ok s

/-- The request `CollectionClient.get` issues: GET with kwargs as `params`,
or under get-over-post a POST with kwargs as `data`. -/
def CollectionClient.getRequest (c : CollectionClientState) (url : String)
    (rest : List (String × Value)) : HttpRequest :=
  if c.operation == .valid .get_over_post then
    { method := .post, url := url, params := [], body := .formParams rest,
      headers := makeAuthHeaders }
  else
    { method := .get, url := url, params := rest, body := .empty,
      headers := makeAuthHeaders }

/-- `CollectionClient.get`: gate on a truthy path (`OperationNotEnabled`
otherwise), build the URL, issue the request; `ConnectionError` yields the
`None` sentinel, an ok response a collection instance, a 404
`ObjectDoesNotExist`, anything else `_handle_api_error`. -/
def CollectionClient.get (c : CollectionClientState) (http : Transport)
    (kwargs : List (String × Value)) :
    Except ClientError (Option CInstance) × List HttpRequest :=
  if !pathTruthy c.path then
    (.error .operationNotEnabled, [])
  else
    match makeUrl c.host c.path c.path_variables c.meta.fields none kwargs with
    | .error e => (.error e, [])
    | .ok (url, rest) =>
      let req := CollectionClient.getRequest c url rest
      match http req with
      | .connectionError => (.ok none, [req])
      | .resp r =>
        if r.ok then (.ok (some (c.meta.collection r.json)), [req])
        else if r.status_code = 404 then (.error .objectDoesNotExist, [req])
        else (.error (handle_api_error r), [req])

/-! Concrete fixtures, used by the witnesses: a small "Article" schema with
path `/articles/{id}`, plus transports that always respond with a fixed
response or always fail to connect. -/

/-- A field whose clean rule is the identity. -/
def idField : RField := { clean := fun v => v }

/-- A field whose clean rule visibly rewrites the value. -/
def bangField : RField := { clean := fun v => v ++ "!" }

/-- A resource instance whose every attribute is "5". -/
def res5 : RInstance := { attr := fun _ => "5", toApi := "{}" }

/-- A resource constructor: keeps the response JSON. -/
def mkRes : Json → RInstance := fun j => { attr := fun _ => j, toApi := j }

/-- A collection constructor: keeps the response JSON. -/
def mkColl : Json → CInstance := fun j => { data := j }

/-- Meta of the sample Article resource. -/
def articleMeta : ResourceMeta :=
  { path := some "/articles/{id}", path_variables := ["id"],
    fields := [("id", idField)],
    supported_operations := [.valid .get, .valid .put, .valid .delete],
    default_send_as_json := true, default_return_resource := none,
    resource := mkRes }

/-- A configured Article resource client with get, put and delete enabled. -/
def articleClient : ResourceClientState :=
  { path := some "/articles/{id}", path_variables := ["id"],
    meta := articleMeta, host := "",
    supported_operations := articleMeta.supported_operations,
    get_enabled := true, get_over_post_enabled := false,
    delete_enabled := true, update_enabled := false, put_enabled := true,
    send_as_json := true }

/-- An Article client on which no operation was enabled. -/
def disabledClient : ResourceClientState :=
  { path := none, path_variables := ["id"],
    meta := articleMeta, host := "",
    supported_operations := articleMeta.supported_operations,
    get_enabled := false, get_over_post_enabled := false,
    delete_enabled := false, update_enabled := false, put_enabled := false,
    send_as_json := true }

/-- Meta of the sample Articles collection. -/
def articlesMeta : CollectionMeta :=
  { path := some "/articles/", path_variables := [], fields := [],
    operation := .valid .get, collection := mkColl }

/-- A configured Articles collection client. -/
def articlesClient : CollectionClientState :=
  { path := some "/articles/", path_variables := [], meta := articlesMeta,
    host := "", operation := .valid .get }

/-- An Articles collection client whose path was never configured. -/
def pathlessCollectionClient : CollectionClientState :=
  { path := none, path_variables := [], meta := articlesMeta,
    host := "", operation := .valid .get }

/-- A transport that always answers with the given response. -/
def respondWith (r : HttpResponse) : Transport := fun _ => .resp r

/-- A transport on which every request raises `ConnectionError`. -/
def downTransport : Transport := fun _ => .connectionError

/-- A 404 response. -/
def resp404 : HttpResponse := { status_code := 404, text := "not found", json := "" }

/-- A 500 response. -/
def resp500 : HttpResponse := { status_code := 500, text := "boom", json := "" }

/-- A 200 response. -/
def resp200 : HttpResponse := { status_code := 200, text := "ok", json := "{}" }

/-- C1: for every Resource `get` call whose HTTP response has a non-success
status, a 404 raises the not-found signal (`ObjectDoesNotExist`), and any
other non-success status raises the general `ApiError` carrying the numeric
status code and the raw response body. -/
theorem C1_get_error_taxonomy
    (c : ResourceClientState) (http : Transport)
    (kwargs rest : List (String × Value)) (url : String) (r : HttpResponse)
    (hen : c.get_enabled = true ∨ c.get_over_post_enabled = true)
    (hurl : makeUrl c.host c.path c.path_variables c.meta.fields none kwargs
      = .ok (url, rest))
    (hresp : http (ResourceClient.getRequest c url rest) = .resp r)
    (hok : r.ok = false) :
    (ResourceClient.get c http kwargs).1 =
      .error (if r.status_code = 404 then ClientError.objectDoesNotExist
        else ClientError.apiError r.status_code r.text) := by
  have hguard : (!c.get_enabled && !c.get_over_post_enabled) = false := by
    rcases hen with h | h <;> simp [h]
  unfold ResourceClient.get
  rw [hguard, hurl]
  simp only [Bool.false_eq_true, if_false, hresp, hok, handle_api_error]

/-- C1 witness: on the Article client, a simulated 404 on `get` yields the
not-found signal. -/
theorem C1_witness :
    (ResourceClient.get articleClient (respondWith resp404) [("id", "5")]).1
      = .error .objectDoesNotExist := by
  have h := C1_get_error_taxonomy articleClient (respondWith resp404)
    [("id", "5")] [] "/articles/5" resp404 (Or.inl rfl) rfl rfl rfl
  simpa using h

/-- C2: a network/connection failure never raises a typed error: `get`
(Resource or Collection) returns the explicit `None` sentinel, while `put`
and `delete` return `False`. -/
theorem C2_connection_failure_sentinels
    (c : ResourceClientState) (cc : CollectionClientState)
    (obj : RInstance) (od : Option RInstance)
    (rr : Option (Json → RInstance)) (aj : Option Bool)
    (kw1 kw2 kw3 kw4 r1 r2 r3 r4 : List (String × Value))
    (u1 u2 u3 u4 : String)
    (hget : c.get_enabled = true ∨ c.get_over_post_enabled = true)
    (hmk1 : makeUrl c.host c.path c.path_variables c.meta.fields none kw1
      = .ok (u1, r1))
    (hput : c.put_enabled = true)
    (hmk2 : makeUrl c.host c.path c.path_variables c.meta.fields (some obj) kw2
      = .ok (u2, r2))
    (hdel : c.delete_enabled = true)
    (hmk3 : makeUrl c.host c.path c.path_variables c.meta.fields od kw3
      = .ok (u3, r3))
    (hcp : pathTruthy cc.path = true)
    (hmk4 : makeUrl cc.host cc.path cc.path_variables cc.meta.fields none kw4
      = .ok (u4, r4)) :
    (ResourceClient.get c downTransport kw1).1 = .ok none ∧
    (ResourceClient.put c downTransport obj rr aj kw2).1 = .ok (.boolR false) ∧
    (ResourceClient.delete c downTransport od kw3).1 = .ok false ∧
    (CollectionClient.get cc downTransport kw4).1 = .ok none := by
  have hguard : (!c.get_enabled && !c.get_over_post_enabled) = false := by
    rcases hget with h | h <;> simp [h]
  refine ⟨?_, ?_, ?_, ?_⟩
  · unfold ResourceClient.get
    rw [hguard, hmk1]
    simp [downTransport]
  · unfold ResourceClient.put
    rw [hput, hmk2]
    simp [downTransport]
  · unfold ResourceClient.delete
    rw [hdel, hmk3]
    simp [downTransport]
  · unfold CollectionClient.get
    rw [hcp, hmk4]
    simp [downTransport]

/-- C2 witness: simulated connection failures on the Article and Articles
clients yield the sentinel for `get` and `False` for `put`/`delete`. -/
theorem C2_witness :
    (ResourceClient.get articleClient downTransport [("id", "5")]).1 = .ok none ∧
    (ResourceClient.put articleClient downTransport res5 none none []).1
      = .ok (.boolR false) ∧
    (ResourceClient.delete articleClient downTransport (some res5) []).1
      = .ok false ∧
    (CollectionClient.get articlesClient downTransport []).1 = .ok none :=
  C2_connection_failure_sentinels articleClient articlesClient res5 (some res5)
    none none [("id", "5")] [] [] [] [] [] [] []
    "/articles/5" "/articles/5" "/articles/5" "/articles/"
    (Or.inl rfl) rfl rfl rfl rfl rfl rfl rfl

/-- C6: a Resource operation (`get`, `put`, `delete`) that was not enabled at
schema-declaration time, and a Collection `get` without a configured URL
path, fail with the "operation not enabled" error before building a URL or
issuing any network request (the request trace is empty). -/
theorem C6_disabled_operations
    (c : ResourceClientState) (cc : CollectionClientState) (http : Transport)
    (kwargs : List (String × Value)) (obj : RInstance) (od : Option RInstance)
    (rr : Option (Json → RInstance)) (aj : Option Bool)
    (h1 : c.get_enabled = false) (h2 : c.get_over_post_enabled = false)
    (h3 : c.put_enabled = false) (h4 : c.delete_enabled = false)
    (h5 : pathTruthy cc.path = false) :
    ResourceClient.get c http kwargs = (.error .operationNotEnabled, []) ∧
    ResourceClient.put c http obj rr aj kwargs
      = (.error .operationNotEnabled, []) ∧
    ResourceClient.delete c http od kwargs
      = (.error .operationNotEnabled, []) ∧
    CollectionClient.get cc http kwargs = (.error .operationNotEnabled, []) := by
  refine ⟨?_, ?_, ?_, ?_⟩
  · unfold ResourceClient.get
    simp [h1, h2]
  · unfold ResourceClient.put
    simp [h3]
  · unfold ResourceClient.delete
    simp [h4]
  · unfold CollectionClient.get
    simp [h5]

/-- C6 witness: on a fully disabled Article client and a pathless collection
client, every operation fails with `OperationNotEnabled` and issues no
request. -/
theorem C6_witness :
    ResourceClient.get disabledClient downTransport []
      = (.error .operationNotEnabled, []) ∧
    ResourceClient.put disabledClient downTransport res5 none none []
      = (.error .operationNotEnabled, []) ∧
    ResourceClient.delete disabledClient downTransport none []
      = (.error .operationNotEnabled, []) ∧
    CollectionClient.get pathlessCollectionClient downTransport []
      = (.error .operationNotEnabled, []) :=
  C6_disabled_operations disabledClient pathlessCollectionClient downTransport
    [] res5 none none none rfl rfl rfl rfl rfl

/-- A Resource meta with no configured path whose operation set is maximally
invalid: it enables both get and get_over_post and contains a value that is
not an `Operations` member. -/
def bogusMeta : ResourceMeta :=
  { path := none, path_variables := [], fields := [],
    supported_operations := [.valid .get, .valid .get_over_post, .invalid],
    default_send_as_json := false, default_return_resource := none,
    resource := mkRes }

/-- C10: when the configured path is empty or missing,
`contribute_to_class` skips all operation validation (no configuration error
for any operation set), every operation flag stays disabled, and every
subsequent `get`, `put` or `delete` call raises `OperationNotEnabled`. -/
theorem C10_empty_path_skips_validation
    (host : String) (meta : ResourceMeta) (http : Transport)
    (kwargs : List (String × Value)) (obj : RInstance) (od : Option RInstance)
    (rr : Option (Json → RInstance)) (aj : Option Bool)
    (hp : pathTruthy meta.path = false) :
    ResourceClient.contribute_to_class host meta
      = .ok (ResourceClient.initState host meta) ∧
    (ResourceClient.initState host meta).get_enabled = false ∧
    (ResourceClient.initState host meta).get_over_post_enabled = false ∧
    (ResourceClient.initState host meta).put_enabled = false ∧
    (ResourceClient.initState host meta).delete_enabled = false ∧
    ResourceClient.get (ResourceClient.initState host meta) http kwargs
      = (.error .operationNotEnabled, []) ∧
    ResourceClient.put (ResourceClient.initState host meta) http obj rr aj kwargs
      = (.error .operationNotEnabled, []) ∧
    ResourceClient.delete (ResourceClient.initState host meta) http od kwargs
      = (.error .operationNotEnabled, []) := by
  refine ⟨?_, rfl, rfl, rfl, rfl, ?_, ?_, ?_⟩
  · unfold ResourceClient.contribute_to_class
    simp [hp]
  · unfold ResourceClient.get
    simp [ResourceClient.initState]
  · unfold ResourceClient.put
    simp [ResourceClient.initState]
  · unfold ResourceClient.delete
    simp [ResourceClient.initState]

/-- C10 witness: `bogusMeta` (no path, both get and get_over_post enabled,
plus a non-Operations value) is declared without error, and every operation
on the resulting client raises `OperationNotEnabled`. -/
theorem C10_witness :
    ResourceClient.contribute_to_class "" bogusMeta
      = .ok (ResourceClient.initState "" bogusMeta) ∧
    (ResourceClient.initState "" bogusMeta).get_enabled = false ∧
    (ResourceClient.initState "" bogusMeta).get_over_post_enabled = false ∧
    (ResourceClient.initState "" bogusMeta).put_enabled = false ∧
    (ResourceClient.initState "" bogusMeta).delete_enabled = false ∧
    ResourceClient.get (ResourceClient.initState "" bogusMeta) downTransport []
      = (.error .operationNotEnabled, []) ∧
    ResourceClient.put (ResourceClient.initState "" bogusMeta) downTransport
      res5 none none [] = (.error .operationNotEnabled, []) ∧
    ResourceClient.delete (ResourceClient.initState "" bogusMeta) downTransport
      none [] = (.error .operationNotEnabled, []) :=
  C10_empty_path_skips_validation "" bogusMeta downTransport [] res5 none none
    none rfl

/-- C7: `put` always issues an HTTP POST (never PUT), with the instance's
serialized form sent as a JSON body or as form data depending on the
effective `as_json` setting (caller- or schema-level); on HTTP success it
returns the configured return type's instance when one is configured
(caller-supplied or the schema default) and `True` otherwise. -/
theorem C7_put_posts
    (c : ResourceClientState) (http : Transport) (obj : RInstance)
    (rr : Option (Json → RInstance)) (aj : Option Bool)
    (kwargs rest : List (String × Value)) (url : String) (r : HttpResponse)
    (hput : c.put_enabled = true)
    (hmk : makeUrl c.host c.path c.path_variables c.meta.fields (some obj) kwargs
      = .ok (url, rest)) :
    (ResourceClient.put c http obj rr aj kwargs).2
      = [ResourceClient.putRequest c obj aj url rest] ∧
    (ResourceClient.putRequest c obj aj url rest).method = .post ∧
    (ResourceClient.putRequest c obj aj url rest).body =
      (if effAsJson c aj then ReqBody.jsonBody obj.toApi
       else ReqBody.formJson obj.toApi) ∧
    (http (ResourceClient.putRequest c obj aj url rest) = .resp r →
      r.ok = true →
      (ResourceClient.put c http obj rr aj kwargs).1 =
        (match effReturnResource c rr with
         | some f => .ok (.resourceR (f r.json))
         | none => .ok (.boolR true))) := by
  refine ⟨?_, rfl, ?_, ?_⟩
  · unfold ResourceClient.put
    rw [hput, hmk]
    simp only [Bool.not_true, Bool.false_eq_true, if_false]
    cases hh : http (ResourceClient.putRequest c obj aj url rest) with
    | connectionError => simp
    | resp r' =>
      by_cases ho : r'.ok = true
      · simp only [ho, if_true]
        cases effReturnResource c rr <;> simp
      · simp [ho]
  · unfold ResourceClient.putRequest
    simp
  · intro hresp hok
    unfold ResourceClient.put
    rw [hput, hmk]
    simp only [Bool.not_true, Bool.false_eq_true, if_false, hresp, hok, if_true]
    cases effReturnResource c rr <;> simp

/-- C7 witness: on the Article client (schema default `as_json = True`),
`put` issues exactly one POST whose body is the JSON serialization, and a
200 response with a caller-supplied return type deserializes into it. -/
theorem C7_witness :
    (ResourceClient.put articleClient (respondWith resp200) res5 (some mkRes)
      none [("id", "5")]).2
      = [ResourceClient.putRequest articleClient res5 none "/articles/5"
          [("id", "5")]] ∧
    (ResourceClient.putRequest articleClient res5 none "/articles/5"
      [("id", "5")]).method = .post ∧
    (ResourceClient.putRequest articleClient res5 none "/articles/5"
      [("id", "5")]).body = .jsonBody "{}" ∧
    (ResourceClient.put articleClient (respondWith resp200) res5 (some mkRes)
      none [("id", "5")]).1 = .ok (.resourceR (mkRes "{}")) := by
  have h := C7_put_posts articleClient (respondWith resp200) res5 (some mkRes)
    none [("id", "5")] [("id", "5")] "/articles/5" resp200 rfl rfl
  obtain ⟨h1, h2, h3, h4⟩ := h
  exact ⟨h1, h2, by simpa using h3, by simpa using h4 rfl rfl⟩

/-- C8: `if not as_json: as_json = self._send_as_json` replaces every falsy
caller value — the default `None` and an explicit `False` alike — by the
schema default, so when the schema defaults to JSON an explicit
`as_json=False` still sends the body as JSON and can never select multipart
form data. -/
theorem C8_as_json_false_cannot_select_form_data
    (c : ResourceClientState) (http : Transport) (obj : RInstance)
    (rr : Option (Json → RInstance))
    (kwargs rest : List (String × Value)) (url : String)
    (hput : c.put_enabled = true)
    (hjson : c.send_as_json = true)
    (hmk : makeUrl c.host c.path c.path_variables c.meta.fields (some obj) kwargs
      = .ok (url, rest)) :
    effAsJson c none = c.send_as_json ∧
    effAsJson c (some false) = c.send_as_json ∧
    (ResourceClient.put c http obj rr (some false) kwargs).2
      = [ResourceClient.putRequest c obj (some false) url rest] ∧
    (ResourceClient.putRequest c obj (some false) url rest).body
      = .jsonBody obj.toApi := by
  refine ⟨rfl, rfl, ?_, ?_⟩
  · unfold ResourceClient.put
    rw [hput, hmk]
    simp only [Bool.not_true, Bool.false_eq_true, if_false]
    cases hh : http (ResourceClient.putRequest c obj (some false) url rest) with
    | connectionError => simp
    | resp r' =>
      by_cases ho : r'.ok = true
      · simp only [ho, if_true]
        cases effReturnResource c rr <;> simp
      · simp [ho]
  · unfold ResourceClient.putRequest
    simp [effAsJson, hjson]

/-- C8 witness: on the Article client (schema `default_send_as_json = True`),
`put` with an explicit `as_json=False` still posts a JSON body. -/
theorem C8_witness :
    effAsJson articleClient none = articleClient.send_as_json ∧
    effAsJson articleClient (some false) = articleClient.send_as_json ∧
    (ResourceClient.put articleClient (respondWith resp200) res5 none
      (some false) []).2
      = [ResourceClient.putRequest articleClient res5 (some false)
          "/articles/5" []] ∧
    (ResourceClient.putRequest articleClient res5 (some false)
      "/articles/5" []).body = .jsonBody "{}" := by
  have h := C8_as_json_false_cannot_select_form_data articleClient
    (respondWith resp200) res5 none [] [] "/articles/5" rfl rfl rfl
  simpa using h

lemma applyOperation_get_mono (s : ResourceClientState) (o : Operations)
    (h : s.get_enabled = true) : (applyOperation s o).get_enabled = true := by
  cases o <;> simp [applyOperation, h]

lemma applyOperation_gop_mono (s : ResourceClientState) (o : Operations)
    (h : s.get_over_post_enabled = true) :
    (applyOperation s o).get_over_post_enabled = true := by
  cases o <;> simp [applyOperation, h]

lemma applyOperations_outcome (l : List OpValue) :
    ∀ s : ResourceClientState,
    (∃ msg, applyOperations s l = .error (.improperlyConfigured msg)) ∨
    ∃ s', applyOperations s l = .ok s' ∧
      ((OpValue.valid .get ∈ l ∨ s.get_enabled = true) →
        s'.get_enabled = true) ∧
      ((OpValue.valid .get_over_post ∈ l ∨ s.get_over_post_enabled = true) →
        s'.get_over_post_enabled = true) := by
  induction l with
  | nil =>
    intro s
    right
    refine ⟨s, rfl, ?_, ?_⟩ <;> rintro (h | h) <;> simp_all
  | cons hd tl ih =>
    intro s
    cases hd with
    | invalid =>
      left
      exact ⟨"Invalid operation supplied!", rfl⟩
    | valid o =>
      rcases ih (applyOperation s o) with ⟨msg, he⟩ | ⟨s', hs, hg, hgp⟩
      · left
        exact ⟨msg, by simpa [applyOperations] using he⟩
      · right
        refine ⟨s', by simpa [applyOperations] using hs, ?_, ?_⟩
        · rintro (h | h)
          · rcases List.mem_cons.mp h with h' | h'
            · obtain rfl : o = Operations.get := by
                injection h' with h''
                exact h''.symm
              exact hg (Or.inr rfl)
            · exact hg (Or.inl h')
          · exact hg (Or.inr (applyOperation_get_mono s o h))
        · rintro (h | h)
          · rcases List.mem_cons.mp h with h' | h'
            · obtain rfl : o = Operations.get_over_post := by
                injection h' with h''
                exact h''.symm
              exact hgp (Or.inr rfl)
            · exact hgp (Or.inl h')
          · exact hgp (Or.inr (applyOperation_gop_mono s o h))

/-- C4: at schema-declaration time, a Resource (with a configured path)
whose operation set enables both get and get_over_post fails with an
`ImproperlyConfigured` error, and a Collection whose operation is anything
other than get or get_over_post fails with `ImproperlyConfigured`. -/
theorem C4_declaration_validation
    (hostR hostC : String) (meta : ResourceMeta) (cmeta : CollectionMeta)
    (hp : pathTruthy meta.path = true)
    (hg : OpValue.valid .get ∈ meta.supported_operations)
    (hgp : OpValue.valid .get_over_post ∈ meta.supported_operations)
    (hc1 : cmeta.operation ≠ .valid .get)
    (hc2 : cmeta.operation ≠ .valid .get_over_post) :
    (∃ msg, ResourceClient.contribute_to_class hostR meta
      = .error (.improperlyConfigured msg)) ∧
    CollectionClient.contribute_to_class hostC cmeta
      = .error (.improperlyConfigured
          "Collections only support get and get_over_post operations!") := by
  constructor
  · unfold ResourceClient.contribute_to_class
    rcases applyOperations_outcome meta.supported_operations
        (ResourceClient.initState hostR meta) with ⟨msg, he⟩ | ⟨s', hs, hgf, hgpf⟩
    · exact ⟨msg, by simp [hp, he]⟩
    · refine ⟨"Resources cannot have both get and get_over_post configured!", ?_⟩
      simp [hp, hs, hgf (Or.inl hg), hgpf (Or.inl hgp)]
  · unfold CollectionClient.contribute_to_class
    simp [hc1, hc2]

/-- A Resource meta with a configured path enabling both get and
get_over_post. -/
def bothGetMeta : ResourceMeta :=
  { path := some "/x", path_variables := [], fields := [],
    supported_operations := [.valid .get, .valid .get_over_post],
    default_send_as_json := false, default_return_resource := none,
    resource := mkRes }

/-- A Collection meta whose operation is `put`. -/
def putCollMeta : CollectionMeta :=
  { path := some "/x", path_variables := [], fields := [],
    operation := .valid .put, collection := mkColl }

/-- C4 witness: a Resource meta enabling both get and get_over_post, and a
Collection meta whose operation is put, are both rejected at declaration. -/
theorem C4_witness :
    (∃ msg, ResourceClient.contribute_to_class "" bothGetMeta
      = .error (.improperlyConfigured msg)) ∧
    CollectionClient.contribute_to_class "" putCollMeta
      = .error (.improperlyConfigured
          "Collections only support get and get_over_post operations!") :=
  C4_declaration_validation "" "" bothGetMeta putCollMeta rfl
    (by decide) (by decide) (by decide) (by decide)

lemma lookup_eraseP_none {β : Type} (l : List (String × β))
    (p : String × β → Bool) (v : String) (h : l.lookup v = none) :
    (l.eraseP p).lookup v = none := by
  induction l with
  | nil => rfl
  | cons kv t ih =>
    simp only [List.lookup] at h
    cases hkv : (v == kv.1) with
    | true => rw [hkv] at h; cases h
    | false =>
      rw [hkv] at h
      by_cases hp : p kv
      · simpa [List.eraseP_cons, hp] using h
      · simp [List.eraseP_cons, hp, List.lookup, hkv, ih h]

lemma resolve_missing_var (fields : List (String × RField)) (res : Option RInstance)
    (v : String) :
    ∀ (pvs : List String) (kwargs : List (String × Value)),
    v ∈ pvs → instanceValue fields res v = none → kwargs.lookup v = none →
    ∃ w, resolvePathVariables fields res pvs kwargs
      = .error (.runtimeError ("No value found for path variable " ++ w)) := by
  intro pvs
  induction pvs with
  | nil => intro kwargs h; cases h
  | cons w ws ih =>
    intro kwargs hv hiv hk
    rcases List.mem_cons.mp hv with rfl | hv'
    · unfold resolvePathVariables
      rw [hiv, hk]
      exact ⟨v, rfl⟩
    · unfold resolvePathVariables
      cases hiw : instanceValue fields res w with
      | some value =>
        obtain ⟨u, hu⟩ := ih kwargs hv' hiv hk
        rw [hu]
        exact ⟨u, rfl⟩
      | none =>
        cases hkw : kwargs.lookup w with
        | some value =>
          obtain ⟨u, hu⟩ := ih _ hv' hiv
            (lookup_eraseP_none kwargs (fun kv => kv.1 == w) v hk)
          rw [hu]
          exact ⟨u, rfl⟩
        | none => exact ⟨w, rfl⟩

lemma makeUrl_missing_var (host : String) (path : Option String)
    (pvs : List String) (fields : List (String × RField))
    (res : Option RInstance) (kwargs : List (String × Value)) (v : String)
    (hv : v ∈ pvs) (hiv : instanceValue fields res v = none)
    (hk : kwargs.lookup v = none) :
    ∃ w, makeUrl host path pvs fields res kwargs
      = .error (.runtimeError ("No value found for path variable " ++ w)) := by
  obtain ⟨w, hw⟩ := resolve_missing_var fields res v pvs kwargs hv hiv hk
  refine ⟨w, ?_⟩
  have hne : pvs.isEmpty = false := by
    cases pvs with
    | nil => cases hv
    | cons a l => rfl
  unfold makeUrl
  rw [hne, hw]
  rfl

/-- C3: when a declared path variable is absent both from the source
instance's fields and from the supplied parameter mapping, URL construction
fails with the `RuntimeError('No value found for path variable ...')`
before any network call is attempted: the request trace of every operation
is empty. -/
theorem C3_missing_path_variable_no_network
    (c : ResourceClientState) (cc : CollectionClientState) (http : Transport)
    (kwargs kwargs2 : List (String × Value)) (obj : RInstance)
    (od : Option RInstance) (rr : Option (Json → RInstance)) (aj : Option Bool)
    (v w : String)
    (hv : v ∈ c.path_variables) (hf : c.meta.fields.lookup v = none)
    (hk : kwargs.lookup v = none)
    (gw : w ∈ cc.path_variables) (gk : kwargs2.lookup w = none) :
    (∃ u, makeUrl c.host c.path c.path_variables c.meta.fields (some obj) kwargs
      = .error (.runtimeError ("No value found for path variable " ++ u))) ∧
    (ResourceClient.get c http kwargs).2 = [] ∧
    (ResourceClient.put c http obj rr aj kwargs).2 = [] ∧
    (ResourceClient.delete c http od kwargs).2 = [] ∧
    (CollectionClient.get cc http kwargs2).2 = [] := by
  have hivN : instanceValue c.meta.fields none v = none := by
    simp [instanceValue]
  have hivO : instanceValue c.meta.fields (some obj) v = none := by
    simp [instanceValue, hf]
  have hivD : instanceValue c.meta.fields od v = none := by
    cases od <;> simp [instanceValue, hf]
  have hivC : instanceValue cc.meta.fields none w = none := by
    simp [instanceValue]
  obtain ⟨u1, h1⟩ := makeUrl_missing_var c.host c.path c.path_variables
    c.meta.fields none kwargs v hv hivN hk
  obtain ⟨u2, h2⟩ := makeUrl_missing_var c.host c.path c.path_variables
    c.meta.fields (some obj) kwargs v hv hivO hk
  obtain ⟨u3, h3⟩ := makeUrl_missing_var c.host c.path c.path_variables
    c.meta.fields od kwargs v hv hivD hk
  obtain ⟨u4, h4⟩ := makeUrl_missing_var cc.host cc.path cc.path_variables
    cc.meta.fields none kwargs2 w gw hivC gk
  refine ⟨⟨u2, h2⟩, ?_, ?_, ?_, ?_⟩
  · unfold ResourceClient.get
    split
    · rfl
    · rw [h1]
  · unfold ResourceClient.put
    split
    · rfl
    · rw [h2]
  · unfold ResourceClient.delete
    split
    · rfl
    · rw [h3]
  · unfold CollectionClient.get
    split
    · rfl
    · rw [h4]

/-- A Resource meta whose path variable `slug` is not among its fields. -/
def orphanMeta : ResourceMeta :=
  { path := some "/articles/{slug}", path_variables := ["slug"],
    fields := [("id", idField)],
    supported_operations := [.valid .get, .valid .put, .valid .delete],
    default_send_as_json := false, default_return_resource := none,
    resource := mkRes }

/-- A fully enabled client for `orphanMeta`. -/
def orphanClient : ResourceClientState :=
  { path := some "/articles/{slug}", path_variables := ["slug"],
    meta := orphanMeta, host := "",
    supported_operations := orphanMeta.supported_operations,
    get_enabled := true, get_over_post_enabled := false,
    delete_enabled := true, update_enabled := false, put_enabled := true,
    send_as_json := false }

/-- A Collection meta whose path variable `slug` has no field. -/
def slugCollMeta : CollectionMeta :=
  { path := some "/articles/{slug}/items", path_variables := ["slug"],
    fields := [], operation := .valid .get, collection := mkColl }

/-- A configured client for `slugCollMeta`. -/
def slugCollClient : CollectionClientState :=
  { path := some "/articles/{slug}/items", path_variables := ["slug"],
    meta := slugCollMeta, host := "", operation := .valid .get }

/-- C3 witness: with path variable `slug` supplied neither by the instance
fields nor by the kwargs, URL construction fails and no operation issues a
request. -/
theorem C3_witness :
    (∃ u, makeUrl orphanClient.host orphanClient.path
      orphanClient.path_variables orphanClient.meta.fields (some res5) []
      = .error (.runtimeError ("No value found for path variable " ++ u))) ∧
    (ResourceClient.get orphanClient downTransport []).2 = [] ∧
    (ResourceClient.put orphanClient downTransport res5 none none []).2 = [] ∧
    (ResourceClient.delete orphanClient downTransport (some res5) []).2 = [] ∧
    (CollectionClient.get slugCollClient downTransport []).2 = [] :=
  C3_missing_path_variable_no_network orphanClient slugCollClient downTransport
    [] [] res5 (some res5) none none "slug" "slug"
    (by decide) rfl rfl (by decide) rfl

lemma resolve_residual_superset (fields : List (String × RField))
    (res : Option RInstance) :
    ∀ (pvs : List String) (kwargs vals rest : List (String × Value))
      (kv : String × Value),
    kv ∈ kwargs → (instanceValue fields res kv.1).isSome = true →
    resolvePathVariables fields res pvs kwargs = .ok (vals, rest) →
    kv ∈ rest := by
  intro pvs
  induction pvs with
  | nil =>
    intro kwargs vals rest kv hkv _ hr
    unfold resolvePathVariables at hr
    cases hr
    exact hkv
  | cons w ws ih =>
    intro kwargs vals rest kv hkv hsome hr
    unfold resolvePathVariables at hr
    cases hiw : instanceValue fields res w with
    | some value =>
      rw [hiw] at hr
      cases hrec : resolvePathVariables fields res ws kwargs with
      | error e => rw [hrec] at hr; cases hr
      | ok p =>
        rw [hrec] at hr
        cases hr
        exact ih kwargs p.1 p.2 kv hkv hsome hrec
    | none =>
      rw [hiw] at hr
      cases hkw : kwargs.lookup w with
      | some value =>
        rw [hkw] at hr
        have hne : ¬(kv.1 == w) = true := by
          intro hb
          have : kv.1 = w := by simpa using hb
          rw [this] at hsome
          rw [hiw] at hsome
          cases hsome
        have hkv' : kv ∈ kwargs.eraseP fun x => x.1 == w :=
          (List.mem_eraseP_of_neg (p := fun x => x.1 == w) (a := kv) hne).mpr hkv
        cases hrec : resolvePathVariables fields res ws
            (kwargs.eraseP fun x => x.1 == w) with
        | error e => rw [hrec] at hr; cases hr
        | ok p =>
          rw [hrec] at hr
          cases hr
          exact ih _ p.1 p.2 kv hkv' hsome hrec
      | none =>
        rw [hkw] at hr
        cases hr

lemma resolve_vals_of_instance (fields : List (String × RField))
    (res : Option RInstance) (v : String) (cv : Value) :
    ∀ (pvs : List String) (kwargs vals rest : List (String × Value)),
    v ∈ pvs → instanceValue fields res v = some cv →
    resolvePathVariables fields res pvs kwargs = .ok (vals, rest) →
    (v, cv) ∈ vals := by
  intro pvs
  induction pvs with
  | nil =>
    intro kwargs vals rest hv
    cases hv
  | cons w ws ih =>
    intro kwargs vals rest hv hiv hr
    unfold resolvePathVariables at hr
    rcases List.mem_cons.mp hv with rfl | hv'
    · rw [hiv] at hr
      cases hrec : resolvePathVariables fields res ws kwargs with
      | error e => rw [hrec] at hr; cases hr
      | ok p =>
        rw [hrec] at hr
        cases hr
        exact List.mem_cons_self _ _
    · cases hiw : instanceValue fields res w with
      | some value =>
        rw [hiw] at hr
        cases hrec : resolvePathVariables fields res ws kwargs with
        | error e => rw [hrec] at hr; cases hr
        | ok p =>
          rw [hrec] at hr
          cases hr
          exact List.mem_cons_of_mem _ (ih kwargs p.1 p.2 hv' hiv hrec)
      | none =>
        rw [hiw] at hr
        cases hkw : kwargs.lookup w with
        | some value =>
          rw [hkw] at hr
          cases hrec : resolvePathVariables fields res ws
              (kwargs.eraseP fun x => x.1 == w) with
          | error e => rw [hrec] at hr; cases hr
          | ok p =>
            rw [hrec] at hr
            cases hr
            exact List.mem_cons_of_mem _ (ih _ p.1 p.2 hv' hiv hrec)
        | none =>
          rw [hkw] at hr
          cases hr

/-- C9: when a declared path variable is resolved from the source instance's
field, a same-named entry in the supplied parameter mapping is not consumed:
the instance's cleaned value is the one bound to the URL placeholder, while
the caller's entry remains in the residual parameters (which `_make_url`
returns for sending to the API). -/
theorem C9_instance_wins_param_not_consumed
    (fields : List (String × RField)) (rI : RInstance) (pvs : List String)
    (kwargs vals rest : List (String × Value)) (v : String) (f : RField)
    (x : Value)
    (hv : v ∈ pvs) (hf : fields.lookup v = some f) (hk : (v, x) ∈ kwargs)
    (hr : resolvePathVariables fields (some rI) pvs kwargs = .ok (vals, rest)) :
    (v, f.clean (rI.attr v)) ∈ vals ∧ (v, x) ∈ rest := by
  have hiv : instanceValue fields (some rI) v = some (f.clean (rI.attr v)) := by
    simp [instanceValue, hf]
  exact ⟨resolve_vals_of_instance fields (some rI) v _ pvs kwargs vals rest hv
      hiv hr,
    resolve_residual_superset fields (some rI) pvs kwargs vals rest (v, x) hk
      (by simp [hiv]) hr⟩

/-- C9 witness: with field `id` on the instance (attribute "5", clean rule
appending "!") and caller kwargs `id=7`, the placeholder binds "5!" while
`id=7` stays in the residual parameters. -/
theorem C9_witness :
    ("id", "5!") ∈ [("id", "5!")] ∧ ("id", "7") ∈ [("id", "7")] :=
  C9_instance_wins_param_not_consumed [("id", bangField)] res5 ["id"]
    [("id", "7")] [("id", "5!")] [("id", "7")] "id" bangField "7"
    (by decide) rfl (by decide) rfl

/-- Following the spec's words (§4.1): the value a declared path variable
resolves to — "prefer the field value from the source instance
(validated/cleaned through that field's rule) if present and the instance
carries that field; otherwise pop it from the supplied parameter mapping". -/
def specResolvedValue (fields : List (String × RField)) (res : Option RInstance)
    (kwargs : List (String × Value)) (v : String) : Value :=
  match instanceValue fields res v with
  | some cv => cv
  | none => (kwargs.lookup v).getD ""

/-- Following the spec's words: a supplied parameter is consumed as a path
variable exactly when its key is a declared path variable that the instance
does not supply. -/
def specConsumed (fields : List (String × RField)) (res : Option RInstance)
    (pvs : List String) (k : String) : Bool :=
  pvs.contains k && (instanceValue fields res k).isNone

lemma lookup_eraseP_ne {β : Type} (v w : String) (h : w ≠ v) :
    ∀ l : List (String × β),
    (l.eraseP fun kv => kv.1 == v).lookup w = l.lookup w := by
  intro l
  induction l with
  | nil => rfl
  | cons kv t ih =>
    obtain ⟨k, b⟩ := kv
    rw [List.eraseP_cons]
    cases hk : (k == v) with
    | true =>
      have hkv : k = v := by simpa using hk
      have hwk : (w == k) = false := by
        rw [hkv]
        simpa using h
      simp only [cond_true, List.lookup_cons, hwk]
    | false =>
      simp only [cond_false, List.lookup_cons]
      cases hw : (w == k) with
      | true => rfl
      | false => simpa using ih

lemma eraseP_key_eq_filter {β : Type} (v : String) :
    ∀ (l : List (String × β)), (l.map Prod.fst).Nodup →
    l.eraseP (fun kv => kv.1 == v) = l.filter fun kv => !(kv.1 == v) := by
  intro l
  induction l with
  | nil => intro _; rfl
  | cons kv t ih =>
    intro hnd
    rw [List.map_cons] at hnd
    have hnotin : kv.1 ∉ t.map Prod.fst := (List.nodup_cons.mp hnd).1
    have hndt : (t.map Prod.fst).Nodup := (List.nodup_cons.mp hnd).2
    rw [List.eraseP_cons, List.filter_cons]
    cases hk : (kv.1 == v) with
    | true =>
      have hkv : kv.1 = v := by simpa using hk
      simp only [hk, cond_true, Bool.not_true, Bool.false_eq_true, if_false]
      symm
      rw [List.filter_eq_self]
      intro a ha
      have hmem : a.1 ∈ t.map Prod.fst := List.mem_map_of_mem Prod.fst ha
      have hne : a.1 ≠ v := by
        intro he
        have hak : a.1 = kv.1 := by rw [he, hkv]
        exact hnotin (hak ▸ hmem)
      simp [hne]
    | false =>
      simp only [hk, cond_false, Bool.not_false, if_true]
      rw [ih hndt]

lemma resolve_spec (fields : List (String × RField)) (res : Option RInstance) :
    ∀ (pvs : List String) (kwargs : List (String × Value)),
    pvs.Nodup → (kwargs.map Prod.fst).Nodup →
    (∀ v ∈ pvs, (instanceValue fields res v).isSome = true ∨
      (kwargs.lookup v).isSome = true) →
    resolvePathVariables fields res pvs kwargs =
      .ok (pvs.map fun v => (v, specResolvedValue fields res kwargs v),
           kwargs.filter fun kv => !specConsumed fields res pvs kv.1) := by
  intro pvs
  induction pvs with
  | nil =>
    intro kwargs _ _ _
    unfold resolvePathVariables
    simp [specConsumed]
  | cons v vs ih =>
    intro kwargs hnd hknd hres
    have hndv : v ∉ vs := (List.nodup_cons.mp hnd).1
    have hndvs : vs.Nodup := (List.nodup_cons.mp hnd).2
    unfold resolvePathVariables
    cases hiv : instanceValue fields res v with
    | some cv =>
      rw [ih kwargs hndvs hknd (fun w hw => hres w (List.mem_cons_of_mem _ hw))]
      simp only [Except.map, List.map_cons, Except.ok.injEq, Prod.mk.injEq,
        List.cons.injEq]
      refine ⟨⟨⟨trivial, ?_⟩, trivial⟩, ?_⟩
      · simp [specResolvedValue, hiv]
      · apply List.filter_congr
        intro kv _
        by_cases h : kv.1 = v
        · simp [specConsumed, h, hiv, List.contains_cons]
        · simp [specConsumed, List.contains_cons, h]
    | none =>
      obtain ⟨x, hx⟩ : ∃ x, kwargs.lookup v = some x := by
        rcases hres v (List.mem_cons_self _ _) with hs | hs
        · rw [hiv] at hs
          cases hs
        · exact Option.isSome_iff_exists.mp hs
      rw [hx]
      have hknd' : ((kwargs.eraseP fun kv => kv.1 == v).map Prod.fst).Nodup :=
        List.Nodup.sublist
          (List.Sublist.map Prod.fst (List.eraseP_sublist kwargs)) hknd
      have hres' : ∀ w ∈ vs,
          (instanceValue fields res w).isSome = true ∨
          ((kwargs.eraseP fun kv => kv.1 == v).lookup w).isSome = true := by
        intro w hw
        rcases hres w (List.mem_cons_of_mem _ hw) with hs | hs
        · exact Or.inl hs
        · right
          rw [lookup_eraseP_ne v w (fun he => hndv (he ▸ hw)) kwargs]
          exact hs
      rw [ih _ hndvs hknd' hres']
      simp only [Except.map, List.map_cons, Except.ok.injEq, Prod.mk.injEq,
        List.cons.injEq]
      refine ⟨⟨⟨trivial, ?_⟩, ?_⟩, ?_⟩
      · simp [specResolvedValue, hiv, hx]
      · apply List.map_congr_left
        intro w hw
        have hwv : w ≠ v := fun he => hndv (he ▸ hw)
        simp only [specResolvedValue]
        rw [lookup_eraseP_ne v w hwv kwargs]
      · rw [eraseP_key_eq_filter v kwargs hknd, List.filter_filter]
        apply List.filter_congr
        intro kv _
        by_cases h : kv.1 = v
        · simp [specConsumed, h, hiv, List.contains_cons]
        · simp [specConsumed, List.contains_cons, h]

/-- C5: for every URL-builder invocation with declared path variables, each
variable resolves by preferring the instance's cleaned field value and
otherwise popping the supplied parameter mapping, and the result is the
resolved absolute URL together with exactly the parameters not consumed as
path variables. `specResolvedValue` and `specConsumed` transcribe the spec's
resolution and consumption rules; the theorem shows `_make_url` computes
exactly them (for dict-faithful inputs, i.e. unique keys/variables). -/
theorem C5_url_builder_characterization
    (host : String) (path : Option String) (fields : List (String × RField))
    (res : Option RInstance) (pvs : List String)
    (kwargs : List (String × Value)) (u : String)
    (hne : pvs ≠ []) (hnd : pvs.Nodup) (hknd : (kwargs.map Prod.fst).Nodup)
    (hres : ∀ v ∈ pvs, (instanceValue fields res v).isSome = true ∨
      (kwargs.lookup v).isSome = true)
    (hfmt : formatString (path.getD "")
      (pvs.map fun v => (v, specResolvedValue fields res kwargs v)) = .ok u) :
    resolvePathVariables fields res pvs kwargs =
      .ok (pvs.map fun v => (v, specResolvedValue fields res kwargs v),
           kwargs.filter fun kv => !specConsumed fields res pvs kv.1) ∧
    makeUrl host path pvs fields res kwargs =
      .ok (urljoin host u,
           kwargs.filter fun kv => !specConsumed fields res pvs kv.1) := by
  have h1 := resolve_spec fields res pvs kwargs hnd hknd hres
  refine ⟨h1, ?_⟩
  unfold makeUrl
  rw [show pvs.isEmpty = false from List.isEmpty_eq_false.mpr hne, h1]
  simp only [Bool.false_eq_true, if_false]
  rw [hfmt]

/-- C5 witness: on `/articles/{id}/p/{page}` with `id` served (and cleaned)
by the instance and `page` popped from the kwargs, the URL resolves to
`/articles/5!/p/2` and only `page` is consumed. -/
theorem C5_witness :
    resolvePathVariables [("id", bangField)] (some res5) ["id", "page"]
      [("page", "2"), ("id", "9"), ("q", "x")] =
      .ok ((["id", "page"].map fun v =>
          (v, specResolvedValue [("id", bangField)] (some res5)
            [("page", "2"), ("id", "9"), ("q", "x")] v)),
        ([("page", "2"), ("id", "9"), ("q", "x")].filter fun kv =>
          !specConsumed [("id", bangField)] (some res5) ["id", "page"] kv.1)) ∧
    makeUrl "" (some "/articles/{id}/p/{page}") ["id", "page"]
      [("id", bangField)] (some res5)
      [("page", "2"), ("id", "9"), ("q", "x")] =
      .ok (urljoin "" "/articles/5!/p/2",
        ([("page", "2"), ("id", "9"), ("q", "x")].filter fun kv =>
          !specConsumed [("id", bangField)] (some res5) ["id", "page"] kv.1)) :=
  C5_url_builder_characterization "" (some "/articles/{id}/p/{page}")
    [("id", bangField)] (some res5) ["id", "page"]
    [("page", "2"), ("id", "9"), ("q", "x")] "/articles/5!/p/2"
    (by decide) (by decide) (by decide) (by decide) rfl
